import Mathlib

/-!
Shallow embedding of the incremental synchronization engine of the
manga-scraper repository: identity normalization of chapter numbers,
the catalog differ, the idempotent chapter upsert, the aggregate stats
maintainer, the retry controller and exit signaling. Each definition is
translated from the Python source file named in its doc comment.
Python floats are modelled as exact rationals (built with `mkRat`), which
agrees with float semantics on the decimal chapter identifiers the code
manipulates; network and DOM scraping collaborators are modelled by their
results (lists of raw links, per-write success flags).
-/

set_option maxHeartbeats 1000000

namespace MangaScraper

/-! ## Identity normalizer (auto_updater.py `save_chapter_to_supabase`,
`get_available_chapters_from_source`) -/

/-- Digit string to a natural number, most significant digit first. -/
def digitsToNat (ds : List Char) : ℕ :=
  ds.foldl (fun a c => 10 * a + (c.toNat - 48)) 0

/-- Model of Python `float(s)` on the decimal tokens this codebase feeds it
(optional sign, digits, at most one dot — the shape produced by the
`chapter-([\d.]+)` regex, plus arbitrary junk like "abc" which raises
`ValueError`, modelled as `none`). The value `i.f` is the exact rational
`(i * 10^k + f) / 10^k`. -/
def parsePyFloat (s : String) : Option ℚ :=
  let cs := s.toList
  let signRest : ℤ × List Char :=
    match cs with
    | '-' :: rest => (-1, rest)
    | '+' :: rest => (1, rest)
    | _ => (1, cs)
  let intDigits := signRest.2.takeWhile Char.isDigit
  let rest := signRest.2.dropWhile Char.isDigit
  match rest with
  | [] =>
    if intDigits.isEmpty then none
    else some (mkRat (signRest.1 * (digitsToNat intDigits : ℤ)) 1)
  | '.' :: fracDigits =>
    if fracDigits.all Char.isDigit && !(intDigits.isEmpty && fracDigits.isEmpty) then
      some (mkRat
        (signRest.1 *
          ((digitsToNat intDigits * 10 ^ fracDigits.length + digitsToNat fracDigits : ℕ) : ℤ))
        (10 ^ fracDigits.length))
    else none
  | _ => none

/-- A Python number after the normalizer ran: an `int` when the float had no
fractional part, otherwise the `float` itself. -/
inductive PyNumber where
  | intVal (n : ℤ)
  | floatVal (q : ℚ)
deriving DecidableEq

/-- `auto_updater.save_chapter_to_supabase` lines 168-173: a string chapter
number is parsed with `float(...)`; a float with `is_integer()` is converted
to `int`. Parse failure is Python's `ValueError` (`InvalidIdentifier`). -/
def normalizeChapterNumber (s : String) : Option PyNumber :=
  match parsePyFloat s with
  | none => none
  | some q => if q.den = 1 then some (.intVal q.num) else some (.floatVal q)

/-! ## Catalog differ (auto_updater.py `get_available_chapters_from_source`,
`find_missing_chapters`) -/

/-- One entry of the chapter list scraped from the source page
(`{'url': ..., 'number': ..., 'text': ...}`). -/
structure SourceItem where
  url : String
  number : ℚ
  text : String
deriving DecidableEq

/-- A raw chapter link before normalization: the URL, the numeric token the
`chapter-([\d.]+)` regex extracted from the href, and the link text. -/
structure RawChapterLink where
  url : String
  numStr : String
  text : String

/-- The loop body of `get_available_chapters_from_source` lines 82-98: parse
each link's numeric token with `float(...)`; on `ValueError` the item is
skipped (`continue`) and processing continues. -/
def chapterLinksFromRaw (links : List RawChapterLink) : List SourceItem :=
  links.filterMap fun l => (parsePyFloat l.numStr).map fun q => ⟨l.url, q, l.text⟩

/-- One step of the dict comprehension
`{ch['number']: ch for ch in chapter_links}`: a repeated key keeps its
position and takes the latest value, a new key is appended. -/
def dedupStep (acc : List (ℚ × SourceItem)) (ch : SourceItem) : List (ℚ × SourceItem) :=
  if ch.number ∈ acc.map Prod.fst then
    acc.map fun p => if p.1 = ch.number then (p.1, ch) else p
  else acc ++ [(ch.number, ch)]

/-- The dict comprehension on line 101 of auto_updater.py (last-seen wins). -/
def dedupLastWins (items : List SourceItem) : List (ℚ × SourceItem) :=
  items.foldl dedupStep []

/-- `get_available_chapters_from_source`: raw links → map from normalized
chapter number to source item; unparseable numbers are excluded. -/
def getAvailableChapters (links : List RawChapterLink) : List (ℚ × SourceItem) :=
  dedupLastWins (chapterLinksFromRaw links)

/-- Dict lookup `available_chapters[num]`. -/
def lookupItem (available : List (ℚ × SourceItem)) (k : ℚ) : Option SourceItem :=
  (available.find? fun p => decide (p.1 = k)).map Prod.snd

/-- `auto_updater.find_missing_chapters` lines 111-125: the work list is
`available.keys - existing` (all of `available.keys` under FORCE_UPDATE),
sorted ascending, each key resolved back to its source item. -/
def findMissingChapters (existing : List ℚ) (available : List (ℚ × SourceItem))
    (forceUpdate : Bool) : List SourceItem :=
  let availableNums := (available.map Prod.fst).dedup
  let missing :=
    if forceUpdate then availableNums
    else availableNums.filter fun k => decide (k ∉ existing)
  (List.insertionSort (fun a b => a ≤ b) missing).filterMap (lookupItem available)

/-! ## Webhook scraper (src/scraper/scrape_new_chapters.py): ledger-aware
differ, direct-to-Cloudinary chapter upsert, exit signaling -/

/-- A chapter entry from `get_all_chapters` in scrape_new_chapters.py, whose
regex `chapter-(\d+)` yields integer chapter numbers. -/
structure WebChapter where
  url : String
  number : ℕ
  text : String
deriving DecidableEq

/-- One ledger row for a chapter, as loaded by `load_existing_metadata`
lines 61-82 (`panel_count`, `expected_count` defaulting to `panel_count`
when the column is absent, `status`). -/
structure ChapterMeta where
  panelCount : ℕ
  expectedCount : ℕ
  status : String
deriving DecidableEq

/-- Dict lookup `existing_metadata[chapter_num]`. -/
def lookupMeta (existing : List (ℕ × ChapterMeta)) (n : ℕ) : Option ChapterMeta :=
  (existing.find? fun p => decide (p.1 = n)).map Prod.snd

/-- `scrape_new_chapters_only` lines 354-368: a chapter is put on the work
list when it is absent from the metadata, or present with a status other
than `'success'`, or with `panel_count != expected_count`. -/
def selectNewChapters (allChapters : List WebChapter)
    (existing : List (ℕ × ChapterMeta)) : List WebChapter :=
  allChapters.filter fun ch =>
    match lookupMeta existing ch.number with
    | none => true
    | some m => decide (m.status ≠ "success") || decide (m.panelCount ≠ m.expectedCount)

/-- The metadata row written by `update_metadata` for one chapter: both
counts, the derived status and the error text. -/
structure LedgerWrite where
  panelCount : ℕ
  expectedCount : ℕ
  status : String
  error : String
deriving DecidableEq

/-- Return value and ledger side effect of
`scrape_chapter_direct_to_cloudinary`. `persistedOrdinals` are the panel
ordinals (`panel-{idx:03d}`) whose upload succeeded. -/
structure ChapterScrapeOutcome where
  uploadedCount : ℕ
  okFlag : Bool
  errorMsg : String
  expectedCount : ℕ
  persistedOrdinals : List ℕ
  ledger : LedgerWrite
deriving DecidableEq

/-- The upload loop lines 251-293: panels are uploaded one by one under
ordinals 1..len(image_urls); a failed download/upload is recorded and
skipped, processing continues. -/
def chapterUploadOrdinals (numUrls : ℕ) (writeOk : ℕ → Bool) : List ℕ :=
  (List.range' 1 numUrls).filter writeOk

/-- `scrape_chapter_direct_to_cloudinary` lines 191-326. `imgs` is the list
of `img` tags found on the chapter page (`expected_count = len(images)`),
each carrying its URL attribute when one exists; `writeOk i` tells whether
the download+upload of panel `i` succeeds. The status written to the ledger
is derived: `'success'` when `uploaded_count == expected_count`, `'partial'`
when `uploaded_count > 0`, else `'failed'`; per-panel failures never escape
(the whole body is wrapped in try/except, so the function is total). -/
def scrapeChapterDirectToCloudinary (imgs : List (Option String))
    (writeOk : ℕ → Bool) : ChapterScrapeOutcome :=
  let expectedCount := imgs.length
  if expectedCount = 0 then
    { uploadedCount := 0, okFlag := false, errorMsg := "No images found",
      expectedCount := 0, persistedOrdinals := [],
      ledger := ⟨0, 0, "failed", "No images found"⟩ }
  else
    let imageUrls := imgs.filterMap id
    if imageUrls.length = 0 then
      { uploadedCount := 0, okFlag := false, errorMsg := "No valid image URLs",
        expectedCount := expectedCount, persistedOrdinals := [],
        ledger := ⟨0, expectedCount, "failed", "No valid image URLs"⟩ }
    else
      let ords := chapterUploadOrdinals imageUrls.length writeOk
      let uploadedCount := ords.length
      let status :=
        if uploadedCount = expectedCount then "success"
        else if 0 < uploadedCount then "partial"
        else "failed"
      let errorMsg :=
        if uploadedCount = expectedCount then ""
        else if 0 < uploadedCount then "Uploaded a strict subset of the panels"
        else "All uploads failed"
      { uploadedCount := uploadedCount, okFlag := decide (uploadedCount = expectedCount),
        errorMsg := errorMsg, expectedCount := expectedCount,
        persistedOrdinals := ords,
        ledger := ⟨uploadedCount, expectedCount, status, errorMsg⟩ }

/-- The summary dict returned by `scrape_new_chapters_only`. -/
structure NewChaptersResult where
  success : Bool
  newChapters : ℕ
  uploaded : ℕ
  failed : ℕ
  skipped : ℕ
deriving DecidableEq

/-- `scrape_new_chapters_only` lines 333-428: empty chapter list →
`success: False`; nothing new → `success: True` with everything skipped;
otherwise each selected chapter is scraped (`ok ch.number` collapses
`success and panel_count > 0` of the chapter scrape) and `success: True` is
returned regardless of how many chapters failed. -/
def scrapeNewChaptersOnly (allChapters : List WebChapter)
    (existing : List (ℕ × ChapterMeta)) (ok : ℕ → Bool) : NewChaptersResult :=
  if allChapters.isEmpty then ⟨false, 0, 0, 0, 0⟩
  else
    let newCh := selectNewChapters allChapters existing
    if newCh.isEmpty then ⟨true, 0, 0, 0, allChapters.length⟩
    else
      { success := true, newChapters := newCh.length,
        uploaded := newCh.countP fun c => ok c.number,
        failed := (newCh.filter fun c => !(ok c.number)).length,
        skipped := 0 }

/-- `main` lines 452-459: `sys.exit(0)` iff the result dict has
`success: True`, else `sys.exit(1)`. -/
def mainExitCode (r : NewChaptersResult) : ℕ :=
  if r.success then 0 else 1

/-! ## Supabase store: idempotent upsert and aggregate stats
(auto_updater.py `save_chapter_to_supabase`, `update_manga_stats`) -/

/-- A row of the `chapters` table (fields this engine touches). -/
structure ChapterRow where
  id : ℕ
  mangaId : ℕ
  number : ℚ
  title : String
  totalPanels : ℕ
deriving DecidableEq

/-- A row of the `panels` table. -/
structure PanelRow where
  chapterId : ℕ
  panelNumber : ℕ
  imageUrl : String
deriving DecidableEq

/-- A row of the `mangas` table (fields this engine touches). -/
structure MangaRow where
  id : ℕ
  title : String
  totalChapters : ℕ
  totalPanels : ℕ
deriving DecidableEq

/-- The relational store; `nextChapterId` models the id the database would
assign to the next inserted chapter row. -/
structure SupabaseDB where
  mangas : List MangaRow
  chapters : List ChapterRow
  panels : List PanelRow
  nextChapterId : ℕ
deriving DecidableEq

/-- The existence check
`chapters.select('id').eq('manga_id', ...).eq('chapter_number', ...)`. -/
def findChapterRow (db : SupabaseDB) (mangaId : ℕ) (key : ℚ) : Option ChapterRow :=
  db.chapters.find? fun r => decide (r.mangaId = mangaId) && decide (r.number = key)

/-- The panel batch built on lines 206-216: the supplied image URLs in input
order, enumerated from 1. -/
def mkPanels (cid : ℕ) (urls : List String) : List PanelRow :=
  urls.enum.map fun p => ⟨cid, p.1 + 1, p.2⟩

/-- `auto_updater.save_chapter_to_supabase` lines 175-217 (timestamps
omitted): look up the chapter by natural key `(manga_id, chapter_number)`;
if found, delete all its panels and update its title/total_panels; else
insert a fresh chapter row; then insert the supplied panels as a batch.
The int-ification of a whole `chapter_number` does not change its rational
value, so `key` is the already-normalized number. Returns the updated store
and the chapter id written. -/
def saveChapterToSupabase (db : SupabaseDB) (mangaId : ℕ) (key : ℚ)
    (title : String) (imageUrls : List String) : SupabaseDB × ℕ :=
  match findChapterRow db mangaId key with
  | some row =>
    ({ db with
        panels := (db.panels.filter fun p => !decide (p.chapterId = row.id)) ++
          mkPanels row.id imageUrls,
        chapters := db.chapters.map fun r =>
          if r.id = row.id then { r with title := title, totalPanels := imageUrls.length }
          else r },
     row.id)
  | none =>
    ({ db with
        chapters := db.chapters ++ [⟨db.nextChapterId, mangaId, key, title, imageUrls.length⟩],
        panels := db.panels ++ mkPanels db.nextChapterId imageUrls,
        nextChapterId := db.nextChapterId + 1 },
     db.nextChapterId)

/-- The panels currently persisted for a chapter id. -/
def panelsOfChapter (db : SupabaseDB) (cid : ℕ) : List PanelRow :=
  db.panels.filter fun p => decide (p.chapterId = cid)

/-- `update_manga_stats` (auto_updater.py lines 226-243, scraper_workflow.py
lines 191-208): re-read every chapter row of the manga, count them and sum
their `total_panels`, and write both onto the manga row. -/
def updateMangaStats (db : SupabaseDB) (mangaId : ℕ) : SupabaseDB :=
  let mangaChapters := db.chapters.filter fun r => decide (r.mangaId = mangaId)
  let totalChapters := mangaChapters.length
  let totalPanels := (mangaChapters.map fun r => r.totalPanels).sum
  { db with
      mangas := db.mangas.map fun r =>
        if r.id = mangaId then
          { r with totalChapters := totalChapters, totalPanels := totalPanels }
        else r }

/-- Lookup of a manga row by id. -/
def findMangaRow (db : SupabaseDB) (mangaId : ℕ) : Option MangaRow :=
  db.mangas.find? fun r => decide (r.id = mangaId)

/-! ## Workflow orchestrator (scraper_workflow.py): chapter-range filter and
bounded retry rounds -/

/-- A chapter entry from `get_all_chapters` in scraper_workflow.py
(decimal chapter numbers allowed). -/
structure WfChapter where
  url : String
  number : ℚ
  text : String
deriving DecidableEq

/-- Python truthiness of a float (`0.0` is falsy). -/
def pyTruthyRat (q : ℚ) : Bool := decide (q ≠ 0)

/-- Python truthiness of an optional float (`None` and `0.0` are falsy). -/
def pyTruthyOpt (e : Option ℚ) : Bool :=
  match e with
  | none => false
  | some q => pyTruthyRat q

/-- The range filter of `scrape_manga_to_supabase` lines 292-295:
`if start_chapter or end_chapter:` keep chapters with
`number >= start_chapter and (not end_chapter or number <= end_chapter)`. -/
def filterChapterRange (chapters : List WfChapter) (startChapter : ℚ)
    (endChapter : Option ℚ) : List WfChapter :=
  if pyTruthyRat startChapter || pyTruthyOpt endChapter then
    chapters.filter fun ch =>
      decide (startChapter ≤ ch.number) &&
        (!pyTruthyOpt endChapter || decide (ch.number ≤ endChapter.getD 0))
  else chapters

/-- The `scrape_all` operation calls `scrape_manga_to_supabase` with its
defaults `start_chapter=1, end_chapter=None` (lines 268, 515-516), so the
unranged run still applies the filter with start bound 1. -/
def scrapeAllChapterFilter (chapters : List WfChapter) : List WfChapter :=
  filterChapterRange chapters 1 none

/-- Final state of one `scrape_manga_to_supabase` run: saved-chapter count,
number of retry rounds executed, chapters still failed, and the log of
(round, chapter number) attempts — round 0 is the first pass. -/
structure ScrapeSummary where
  successCount : ℕ
  retryCount : ℕ
  failedChapters : List WfChapter
  attemptLog : List (ℕ × ℚ)
deriving DecidableEq

/-- One pass over a work list (the body shared by the first pass lines
307-343 and each retry round lines 356-392): every chapter is attempted
once; `ok round ch.number` collapses "scrape succeeded and save succeeded".
Returns (new successes, still-failed carryover, attempts made). -/
def attemptChapters (ok : ℕ → ℚ → Bool) (round : ℕ) (work : List WfChapter) :
    ℕ × List WfChapter × List (ℕ × ℚ) :=
  ((work.countP fun c => ok round c.number),
   (work.filter fun c => !(ok round c.number)),
   work.map fun c => (round, c.number))

/-- The retry loop lines 346-394: `while failed_chapters and
retry_count < max_retries`, each round re-attempting only the still-failed
carryover. `fuel` is `max_retries - retry_count`. -/
def retryLoop (ok : ℕ → ℚ → Bool) : ℕ → ℕ → ScrapeSummary → ScrapeSummary
  | 0, _, st => st
  | fuel + 1, round, st =>
    if st.failedChapters.isEmpty then st
    else
      let a := attemptChapters ok round st.failedChapters
      retryLoop ok fuel (round + 1)
        { successCount := st.successCount + a.1, retryCount := round,
          failedChapters := a.2.1, attemptLog := st.attemptLog ++ a.2.2 }

/-- `scrape_manga_to_supabase` lines 268-408 restricted to its control flow
over an already-filtered chapter list: first pass over all chapters, then up
to `maxRetries` retry rounds over the failed carryover (`max_retries`
defaults to 3). -/
def scrapeMangaToSupabase (ok : ℕ → ℚ → Bool) (maxRetries : ℕ)
    (chapters : List WfChapter) : ScrapeSummary :=
  let a := attemptChapters ok 0 chapters
  retryLoop ok maxRetries 1 ⟨a.1, 0, a.2.1, a.2.2⟩

/-- How many times the run attempted the chapter with the given number. -/
def attemptsOf (s : ScrapeSummary) (num : ℚ) : ℕ :=
  s.attemptLog.countP fun p => decide (p.2 = num)

/-! ## Concrete scenario inputs -/

/-- Scenario A raw links: available chapter tokens 1, 2, 3, 4 and 4.5. -/
def scenarioALinks : List RawChapterLink :=
  [⟨"u1", "1", "ch1"⟩, ⟨"u2", "2", "ch2"⟩, ⟨"u3", "3", "ch3"⟩, ⟨"u4", "4", "ch4"⟩,
   ⟨"u45", "4.5", "ch45"⟩]

/-! ## Claim C2: incomplete-unit re-inclusion -/

/-- C2: a unit present in the existing ledger whose status is not `success`,
or whose persisted sub-item count differs from the expected count, is
treated as missing and included in the work list for re-processing
(`scrape_new_chapters_only` lines 354-368). -/
theorem c2_incomplete_unit_reinclusion :
    ∀ (allChapters : List WebChapter) (existing : List (ℕ × ChapterMeta))
      (ch : WebChapter) (m : ChapterMeta),
      ch ∈ allChapters → lookupMeta existing ch.number = some m →
      (m.status ≠ "success" ∨ m.panelCount ≠ m.expectedCount) →
      ch ∈ selectNewChapters allChapters existing := by
  intro all existing ch m hmem hlook hbad
  unfold selectNewChapters
  rw [List.mem_filter]
  refine ⟨hmem, ?_⟩
  rw [hlook]
  cases hbad with
  | inl h => simp [h]
  | inr h => simp [h]

/-- Witness for C2: chapter 5 is recorded with status `partial` and
10 of 12 panels, so it is re-included in the work list. -/
theorem c2_incomplete_unit_reinclusion_witness :
    lookupMeta [((5 : ℕ), (⟨10, 12, "partial"⟩ : ChapterMeta))] 5 =
      some ⟨10, 12, "partial"⟩ ∧
    (⟨"u5", 5, "ch5"⟩ : WebChapter) ∈
      selectNewChapters [⟨"u5", 5, "ch5"⟩] [((5 : ℕ), (⟨10, 12, "partial"⟩ : ChapterMeta))] :=
  ⟨by decide,
   c2_incomplete_unit_reinclusion _ _ _ ⟨10, 12, "partial"⟩ (by decide) (by decide)
     (Or.inl (by decide))⟩

/-! ## Claim C4: retry bound -/

/-- Under an always-failing attempt function, the retry loop keeps the
single failed chapter and appends one attempt per remaining round. -/
theorem retryLoop_always_fails (c : WfChapter) :
    ∀ (fuel round : ℕ) (st : ScrapeSummary), st.failedChapters = [c] →
      (retryLoop (fun _ _ => false) fuel round st).failedChapters = [c] ∧
      (retryLoop (fun _ _ => false) fuel round st).attemptLog =
        st.attemptLog ++ (List.range' round fuel).map fun r => (r, c.number) := by
  intro fuel
  induction fuel with
  | zero => intro round st h; simp [retryLoop, h]
  | succ n ih =>
    intro round st h
    have hne : st.failedChapters.isEmpty = false := by rw [h]; rfl
    have hstep : attemptChapters (fun _ _ => false) round [c] =
        (0, [c], [(round, c.number)]) := by
      simp [attemptChapters]
    rw [retryLoop, hne]
    simp only [Bool.false_eq_true, if_false, h, hstep]
    obtain ⟨h1, h2⟩ := ih (round + 1)
      ⟨st.successCount + 0, round, [c], st.attemptLog ++ [(round, c.number)]⟩ rfl
    refine ⟨h1, ?_⟩
    rw [h2]
    simp [List.range'_succ, List.append_assoc]

/-- Counterexample to C4 as stated: with `max_retries = 3` an always-failing
chapter is attempted 4 times (first pass plus 3 retry rounds), not 3. -/
theorem c4_retry_attempts_counterexample :
    attemptsOf (scrapeMangaToSupabase (fun _ _ => false) 3 [⟨"u7", 7, "ch7"⟩]) 7 = 4 ∧
    attemptsOf (scrapeMangaToSupabase (fun _ _ => false) 3 [⟨"u7", 7, "ch7"⟩]) 7 ≠ 3 ∧
    (scrapeMangaToSupabase (fun _ _ => false) 3 [⟨"u7", 7, "ch7"⟩]).failedChapters =
      [⟨"u7", 7, "ch7"⟩] := by
  decide

/-- C4 amended: a unit whose attempt always fails is attempted exactly
`max_retries + 1` times (round 1 on the full work list, each later round on
the still-failed carryover) and is reported exactly once as failed in the
final summary. -/
theorem c4_retry_attempts_amended :
    ∀ (maxRetries : ℕ) (c : WfChapter),
      attemptsOf (scrapeMangaToSupabase (fun _ _ => false) maxRetries [c]) c.number =
        maxRetries + 1 ∧
      (scrapeMangaToSupabase (fun _ _ => false) maxRetries [c]).failedChapters = [c] := by
  intro mr c
  have hstep : attemptChapters (fun _ _ => false) 0 [c] = (0, [c], [(0, c.number)]) := by
    simp [attemptChapters]
  unfold scrapeMangaToSupabase
  rw [hstep]
  obtain ⟨h1, h2⟩ := retryLoop_always_fails c mr 1 ⟨0, 0, [c], [(0, c.number)]⟩ rfl
  refine ⟨?_, h1⟩
  rw [attemptsOf, h2, List.countP_append, List.countP_map]
  have hone : List.countP (fun p => decide (p.2 = c.number)) [((0 : ℕ), c.number)] = 1 := by
    simp [List.countP_cons]
  have hall : List.countP ((fun p => decide (p.2 = c.number)) ∘ fun r => (r, c.number))
      (List.range' 1 mr) = mr := by
    rw [List.countP_eq_length.mpr, List.length_range']
    intro a _
    simp
  rw [hone, hall, Nat.add_comm]

/-! ## Claim C9: exit signaling -/

/-- Counterexample to C9 as stated: a run whose only unit fails still
returns `success: True`, so the process exits 0 even though a unit ended as
failed — the exit status is not success-iff-no-failed-unit. -/
theorem c9_exit_signaling_counterexample :
    mainExitCode (scrapeNewChaptersOnly [⟨"u1", 1, "ch1"⟩] [] fun _ => false) = 0 ∧
    (scrapeNewChaptersOnly [⟨"u1", 1, "ch1"⟩] [] fun _ => false).failed = 1 ∧
    ¬(mainExitCode (scrapeNewChaptersOnly [⟨"u1", 1, "ch1"⟩] [] fun _ => false) = 0 ↔
        (scrapeNewChaptersOnly [⟨"u1", 1, "ch1"⟩] [] fun _ => false).failed = 0) := by
  decide

/-- C9 amended: the exit status signals success exactly when the chapter
list could be fetched (non-empty); per-unit failures do not influence it
(they are only derivable from the summary's `failed` count). -/
theorem c9_exit_signaling_amended :
    ∀ (allChapters : List WebChapter) (existing : List (ℕ × ChapterMeta)) (ok : ℕ → Bool),
      mainExitCode (scrapeNewChaptersOnly allChapters existing ok) = 0 ↔
        allChapters ≠ [] := by
  intro all existing ok
  cases all with
  | nil => simp [scrapeNewChaptersOnly, mainExitCode]
  | cons a l =>
    have h : (a :: l).isEmpty = false := rfl
    rw [scrapeNewChaptersOnly, h]
    simp only [Bool.false_eq_true, if_false]
    exact iff_of_true (by split <;> rfl) (List.cons_ne_nil a l)

/-! ## Claim C10: chapter-range filter -/

/-- C10: the range filter is applied whenever `start_chapter` is nonzero;
with the default `start_chapter = 1` (as used by `scrape_all`) every chapter
numbered strictly below 1 is excluded, and explicit bounds are both
inclusive. -/
theorem c10_chapter_range_filter :
    (∀ (chapters : List WfChapter) (ch : WfChapter),
        ch ∈ scrapeAllChapterFilter chapters ↔ ch ∈ chapters ∧ 1 ≤ ch.number) ∧
    (∀ (s e : ℚ) (chapters : List WfChapter) (ch : WfChapter), s ≠ 0 → e ≠ 0 →
        (ch ∈ filterChapterRange chapters s (some e) ↔
          ch ∈ chapters ∧ s ≤ ch.number ∧ ch.number ≤ e)) := by
  constructor
  · intro chapters ch
    rw [scrapeAllChapterFilter, filterChapterRange]
    simp [pyTruthyRat, pyTruthyOpt, List.mem_filter]
  · intro s e chapters ch hs he
    rw [filterChapterRange]
    simp [pyTruthyRat, pyTruthyOpt, hs, he, List.mem_filter, and_assoc]

/-- Witness for C10: chapter 2 passes the inclusive range [2, 3]. -/
theorem c10_chapter_range_filter_witness :
    (2 : ℚ) ≠ 0 ∧ (3 : ℚ) ≠ 0 ∧
    ((⟨"u2", 2, "ch2"⟩ : WfChapter) ∈ filterChapterRange [⟨"u2", 2, "ch2"⟩] 2 (some 3) ↔
      (⟨"u2", 2, "ch2"⟩ : WfChapter) ∈ ([⟨"u2", 2, "ch2"⟩] : List WfChapter) ∧
        2 ≤ (⟨"u2", 2, "ch2"⟩ : WfChapter).number ∧
        (⟨"u2", 2, "ch2"⟩ : WfChapter).number ≤ 3) :=
  ⟨by decide, by decide,
   c10_chapter_range_filter.2 2 3 _ _ (by decide) (by decide)⟩

/-! ## Claim C3: derived upsert status (Scenario B) -/

/-- C3: the status written for a chapter upsert is derived, never supplied:
`success` iff every discovered panel was persisted (and there was at least
one), `partial` iff strictly between 0 and all, `failed` iff nothing was
persisted or no panels were discovered; the ledger records both counts. In
particular (Scenario B) 18 of 20 succeeding writes give status `partial`
with `persisted_subitem_count = 18` and both counts in the ledger, and the
function is total, so no exception reaches the orchestrator. -/
theorem c3_status_derived :
    (∀ (imgs : List (Option String)) (writeOk : ℕ → Bool),
        ((scrapeChapterDirectToCloudinary imgs writeOk).ledger.status = "success" ↔
          (scrapeChapterDirectToCloudinary imgs writeOk).uploadedCount = imgs.length ∧
            imgs ≠ []) ∧
        ((scrapeChapterDirectToCloudinary imgs writeOk).ledger.status = "partial" ↔
          0 < (scrapeChapterDirectToCloudinary imgs writeOk).uploadedCount ∧
            (scrapeChapterDirectToCloudinary imgs writeOk).uploadedCount < imgs.length) ∧
        ((scrapeChapterDirectToCloudinary imgs writeOk).ledger.status = "failed" ↔
          ((scrapeChapterDirectToCloudinary imgs writeOk).uploadedCount = 0 ∨ imgs = [])) ∧
        (scrapeChapterDirectToCloudinary imgs writeOk).ledger.panelCount =
          (scrapeChapterDirectToCloudinary imgs writeOk).uploadedCount ∧
        (scrapeChapterDirectToCloudinary imgs writeOk).ledger.expectedCount = imgs.length) ∧
    ((scrapeChapterDirectToCloudinary (List.replicate 20 (some "img"))
        (fun i => decide (i ≤ 18))).ledger.status = "partial" ∧
      (scrapeChapterDirectToCloudinary (List.replicate 20 (some "img"))
        (fun i => decide (i ≤ 18))).uploadedCount = 18 ∧
      (scrapeChapterDirectToCloudinary (List.replicate 20 (some "img"))
        (fun i => decide (i ≤ 18))).ledger.panelCount = 18 ∧
      (scrapeChapterDirectToCloudinary (List.replicate 20 (some "img"))
        (fun i => decide (i ≤ 18))).ledger.expectedCount = 20) := by
  refine ⟨?_, by decide⟩
  intro imgs writeOk
  simp only [scrapeChapterDirectToCloudinary, chapterUploadOrdinals]
  split_ifs with h0 h1 h2 h3 <;> dsimp only
  · have himgs : imgs = [] := List.length_eq_zero.mp h0
    subst himgs
    decide
  · refine ⟨iff_of_false (by simp) (fun h => h0 h.1.symm),
      iff_of_false (by simp) (fun h => Nat.lt_irrefl 0 h.1),
      iff_of_true rfl (Or.inl rfl), rfl, rfl⟩
  · have himgs : imgs ≠ [] := fun h => h0 (by simp [h])
    refine ⟨iff_of_true rfl ⟨h2, himgs⟩,
      iff_of_false (by simp) (fun h => ?_),
      iff_of_false (by simp) ?_, rfl, rfl⟩
    · rw [h2] at h
      exact Nat.lt_irrefl _ h.2
    · rintro (h | h)
      · exact h0 (h ▸ h2).symm
      · exact himgs h
  · have himgs : imgs ≠ [] := fun h => h0 (by simp [h])
    have hle : ((List.range' 1 (imgs.filterMap id).length).filter writeOk).length ≤
        imgs.length := by
      calc ((List.range' 1 (imgs.filterMap id).length).filter writeOk).length
          ≤ (List.range' 1 (imgs.filterMap id).length).length :=
            List.length_filter_le _ _
        _ = (imgs.filterMap id).length := List.length_range' _ _ _
        _ ≤ imgs.length := List.length_filterMap_le _ _
    refine ⟨iff_of_false (by simp) (fun h => h2 h.1),
      iff_of_true rfl ⟨h3, lt_of_le_of_ne hle h2⟩,
      iff_of_false (by simp) ?_, rfl, rfl⟩
    rintro (h | h)
    · exact Nat.lt_irrefl 0 (h ▸ h3)
    · exact himgs h
  · have hu : ((List.range' 1 (imgs.filterMap id).length).filter writeOk).length = 0 :=
      Nat.eq_zero_of_not_pos h3
    exact ⟨iff_of_false (by simp) (fun h => h2 h.1),
      iff_of_false (by simp) (fun h => h3 h.1),
      iff_of_true rfl (Or.inl hu), rfl, rfl⟩

/-! ## Claim C8: panel ordinals -/

/-- Counterexample to C8 as stated: with two discovered panels where the
write of panel 1 fails and panel 2 succeeds, the chapter ends `partial` but
its persisted ordinals are `[2]` — not a gapless sequence starting at 1. -/
theorem c8_ordinals_counterexample :
    (scrapeChapterDirectToCloudinary [some "a", some "b"]
        (fun i => decide (i = 2))).ledger.status = "partial" ∧
    (scrapeChapterDirectToCloudinary [some "a", some "b"]
        (fun i => decide (i = 2))).persistedOrdinals = [2] ∧
    (scrapeChapterDirectToCloudinary [some "a", some "b"]
        (fun i => decide (i = 2))).persistedOrdinals ≠
      List.range' 1 (scrapeChapterDirectToCloudinary [some "a", some "b"]
        (fun i => decide (i = 2))).persistedOrdinals.length := by
  decide

/-- C8 amended: for a `success` chapter the persisted ordinals are exactly
the gapless sequence 1..expected; for a `partial` chapter they are a
strictly increasing subsequence of 1..expected, with gaps where individual
panel writes failed. -/
theorem c8_ordinals_amended :
    ∀ (imgs : List (Option String)) (writeOk : ℕ → Bool),
      ((scrapeChapterDirectToCloudinary imgs writeOk).ledger.status = "success" →
        (scrapeChapterDirectToCloudinary imgs writeOk).persistedOrdinals =
          List.range' 1 (scrapeChapterDirectToCloudinary imgs writeOk).expectedCount) ∧
      (((scrapeChapterDirectToCloudinary imgs writeOk).ledger.status = "success" ∨
          (scrapeChapterDirectToCloudinary imgs writeOk).ledger.status = "partial") →
        (scrapeChapterDirectToCloudinary imgs writeOk).persistedOrdinals.Sorted (· < ·) ∧
          ∀ i ∈ (scrapeChapterDirectToCloudinary imgs writeOk).persistedOrdinals,
            1 ≤ i ∧ i ≤ (scrapeChapterDirectToCloudinary imgs writeOk).expectedCount) := by
  intro imgs writeOk
  simp only [scrapeChapterDirectToCloudinary, chapterUploadOrdinals]
  split_ifs with h0 h1 h2 h3 <;> dsimp only
  · exact ⟨fun h => by simp at h, fun h => by rcases h with h | h <;> simp at h⟩
  · exact ⟨fun h => by simp at h, fun h => by rcases h with h | h <;> simp at h⟩
  · -- success
    have hm : (imgs.filterMap id).length ≤ imgs.length := List.length_filterMap_le _ _
    have hlr : (List.range' 1 (imgs.filterMap id).length).length =
        (imgs.filterMap id).length := List.length_range' _ _ _
    have hfle : ((List.range' 1 (imgs.filterMap id).length).filter writeOk).length ≤
        (imgs.filterMap id).length := (List.length_filter_le _ _).trans_eq hlr
    have heq : ((List.range' 1 (imgs.filterMap id).length).filter writeOk).length =
        (imgs.filterMap id).length := le_antisymm hfle (by omega)
    have hfull : (List.range' 1 (imgs.filterMap id).length).filter writeOk =
        List.range' 1 (imgs.filterMap id).length :=
      (List.filter_sublist _).eq_of_length (heq.trans hlr.symm)
    have hml : (imgs.filterMap id).length = imgs.length := by omega
    refine ⟨fun _ => by rw [hfull, hml], fun _ => ⟨?_, ?_⟩⟩
    · exact List.Pairwise.filter _ (List.pairwise_lt_range' _ _)
    · intro i hi
      rw [List.mem_filter, List.mem_range'_1] at hi
      omega
  · -- partial
    have hm : (imgs.filterMap id).length ≤ imgs.length := List.length_filterMap_le _ _
    refine ⟨fun h => by simp at h, fun _ => ⟨?_, ?_⟩⟩
    · exact List.Pairwise.filter _ (List.pairwise_lt_range' _ _)
    · intro i hi
      rw [List.mem_filter, List.mem_range'_1] at hi
      omega
  · exact ⟨fun h => by simp at h, fun h => by rcases h with h | h <;> simp at h⟩

/-- Witness for C8 amended: a one-panel chapter whose write succeeds is
`success` with ordinals `[1]`. -/
theorem c8_ordinals_amended_witness :
    (scrapeChapterDirectToCloudinary [some "a"] (fun _ => true)).ledger.status =
      "success" ∧
    (scrapeChapterDirectToCloudinary [some "a"] (fun _ => true)).persistedOrdinals =
      List.range' 1 (scrapeChapterDirectToCloudinary [some "a"] (fun _ => true)).expectedCount :=
  ⟨by decide, (c8_ordinals_amended [some "a"] (fun _ => true)).1 (by decide)⟩

/-! ## Claims C7 and C6: aggregate stats and idempotent upsert -/

/-- `find?` over a list mapped by a function that does not change the
predicate finds the image of the original first match. -/
theorem find?_map_pred_inv {α : Type} (p : α → Bool) (f : α → α)
    (h : ∀ x, p (f x) = p x) :
    ∀ l : List α, (l.map f).find? p = (l.find? p).map f := by
  intro l
  induction l with
  | nil => rfl
  | cons a l ih =>
    simp only [List.map_cons, List.find?]
    rw [h a]
    cases hpa : p a
    · exact ih
    · rfl

/-- C7: after `update_manga_stats(manga_id)` the manga row's `total_panels`
equals the sum of `total_panels` over all currently persisted chapter rows
of that manga and `total_chapters` equals their count — recomputed by a full
re-scan of the chapter rows (the result does not depend on the previous
counter values, and chapters/panels are untouched). -/
theorem c7_stats_full_rescan :
    ∀ (db : SupabaseDB) (mangaId : ℕ) (row : MangaRow),
      findMangaRow db mangaId = some row →
      ∃ r : MangaRow,
        findMangaRow (updateMangaStats db mangaId) mangaId = some r ∧
        r.totalPanels =
          ((db.chapters.filter fun c => decide (c.mangaId = mangaId)).map
            fun c => c.totalPanels).sum ∧
        r.totalChapters =
          (db.chapters.filter fun c => decide (c.mangaId = mangaId)).length ∧
        (updateMangaStats db mangaId).chapters = db.chapters ∧
        (updateMangaStats db mangaId).panels = db.panels := by
  intro db mangaId row hrow
  have hid : row.id = mangaId := by
    have := List.find?_some hrow
    exact of_decide_eq_true this
  refine ⟨{ row with
      totalChapters := (db.chapters.filter fun c => decide (c.mangaId = mangaId)).length,
      totalPanels := ((db.chapters.filter fun c => decide (c.mangaId = mangaId)).map
        fun c => c.totalPanels).sum }, ?_, rfl, rfl, rfl, rfl⟩
  simp only [updateMangaStats, findMangaRow] at hrow ⊢
  rw [find?_map_pred_inv]
  · rw [hrow]
    simp [hid]
  · intro x
    by_cases hx : x.id = mangaId
    · simp [hx]
    · simp [hx]

/-- Witness for C7: a manga with two chapters of 7 and 5 panels gets
`total_chapters = 2` and `total_panels = 12`. -/
theorem c7_stats_full_rescan_witness :
    findMangaRow ⟨[⟨1, "m", 0, 0⟩], [⟨10, 1, 1, "ch1", 7⟩, ⟨11, 1, 2, "ch2", 5⟩], [], 12⟩ 1 =
      some ⟨1, "m", 0, 0⟩ ∧
    ∃ r : MangaRow,
      findMangaRow
          (updateMangaStats
            ⟨[⟨1, "m", 0, 0⟩], [⟨10, 1, 1, "ch1", 7⟩, ⟨11, 1, 2, "ch2", 5⟩], [], 12⟩ 1) 1 =
        some r ∧
      r.totalPanels =
        ((SupabaseDB.chapters
            ⟨[⟨1, "m", 0, 0⟩], [⟨10, 1, 1, "ch1", 7⟩, ⟨11, 1, 2, "ch2", 5⟩], [], 12⟩
          |>.filter fun c => decide (c.mangaId = 1)).map fun c => c.totalPanels).sum ∧
      r.totalChapters =
        (SupabaseDB.chapters
            ⟨[⟨1, "m", 0, 0⟩], [⟨10, 1, 1, "ch1", 7⟩, ⟨11, 1, 2, "ch2", 5⟩], [], 12⟩
          |>.filter fun c => decide (c.mangaId = 1)).length ∧
      (updateMangaStats
          ⟨[⟨1, "m", 0, 0⟩], [⟨10, 1, 1, "ch1", 7⟩, ⟨11, 1, 2, "ch2", 5⟩], [], 12⟩ 1).chapters =
        SupabaseDB.chapters
          ⟨[⟨1, "m", 0, 0⟩], [⟨10, 1, 1, "ch1", 7⟩, ⟨11, 1, 2, "ch2", 5⟩], [], 12⟩ ∧
      (updateMangaStats
          ⟨[⟨1, "m", 0, 0⟩], [⟨10, 1, 1, "ch1", 7⟩, ⟨11, 1, 2, "ch2", 5⟩], [], 12⟩ 1).panels =
        SupabaseDB.panels
          ⟨[⟨1, "m", 0, 0⟩], [⟨10, 1, 1, "ch1", 7⟩, ⟨11, 1, 2, "ch2", 5⟩], [], 12⟩ :=
  ⟨by decide, c7_stats_full_rescan _ 1 ⟨1, "m", 0, 0⟩ (by decide)⟩

/-- The panel batch stores the supplied URLs in input order. -/
theorem mkPanels_map_imageUrl (cid : ℕ) (urls : List String) :
    (mkPanels cid urls).map (fun p => p.imageUrl) = urls := by
  unfold mkPanels
  rw [List.map_map]
  exact List.enum_map_snd urls

/-- Every panel of a batch carries the chapter id it was built for. -/
theorem mkPanels_chapterId (cid : ℕ) (urls : List String) :
    ∀ pr ∈ mkPanels cid urls, pr.chapterId = cid := by
  intro pr hpr
  unfold mkPanels at hpr
  rw [List.mem_map] at hpr
  obtain ⟨pq, hmem, rfl⟩ := hpr
  rfl

/-- After an upsert, looking the chapter up by its natural key finds a row
whose id is the one the upsert returned. -/
theorem saveChapter_find (db : SupabaseDB) (m : ℕ) (key : ℚ) (t : String)
    (urls : List String) :
    ∃ row : ChapterRow,
      findChapterRow (saveChapterToSupabase db m key t urls).1 m key = some row ∧
      row.id = (saveChapterToSupabase db m key t urls).2 := by
  cases hf : findChapterRow db m key with
  | some row =>
    simp only [saveChapterToSupabase, hf]
    refine ⟨{ row with title := t, totalPanels := urls.length }, ?_, rfl⟩
    unfold findChapterRow at hf ⊢
    dsimp only
    rw [find?_map_pred_inv]
    · rw [hf]
      simp
    · intro x
      by_cases hx : x.id = row.id
      · simp [hx]
      · simp [hx]
  | none =>
    simp only [saveChapterToSupabase, hf]
    refine ⟨⟨db.nextChapterId, m, key, t, urls.length⟩, ?_, rfl⟩
    unfold findChapterRow at hf ⊢
    dsimp only
    rw [List.find?_append, hf]
    simp [List.find?]

/-- C6: `save_chapter_to_supabase` is idempotent — calling it twice with
identical arguments returns the same chapter id, and afterwards that chapter
holds exactly the second call's panels (ordinals 1..N over the input URLs in
input order): no duplicates and no leftovers, because panels are replaced
wholesale (delete-then-reinsert). -/
theorem c6_upsert_idempotent :
    ∀ (db : SupabaseDB) (mangaId : ℕ) (key : ℚ) (title : String) (urls : List String),
      (saveChapterToSupabase (saveChapterToSupabase db mangaId key title urls).1
          mangaId key title urls).2 =
        (saveChapterToSupabase db mangaId key title urls).2 ∧
      panelsOfChapter
          (saveChapterToSupabase (saveChapterToSupabase db mangaId key title urls).1
            mangaId key title urls).1
          (saveChapterToSupabase db mangaId key title urls).2 =
        mkPanels (saveChapterToSupabase db mangaId key title urls).2 urls ∧
      (panelsOfChapter
          (saveChapterToSupabase (saveChapterToSupabase db mangaId key title urls).1
            mangaId key title urls).1
          (saveChapterToSupabase db mangaId key title urls).2).map
          (fun p => p.imageUrl) = urls := by
  intro db m key t urls
  obtain ⟨row, hrow, hid⟩ := saveChapter_find db m key t urls
  revert hrow hid
  generalize saveChapterToSupabase db m key t urls = r1
  obtain ⟨db1, c1⟩ := r1
  intro hrow hid
  have hpan : panelsOfChapter (saveChapterToSupabase db1 m key t urls).1 c1 =
      mkPanels c1 urls := by
    simp only [saveChapterToSupabase, hrow, panelsOfChapter]
    rw [hid]
    rw [List.filter_append, List.filter_filter]
    simp only [Bool.and_not_self, List.filter_false, List.nil_append]
    rw [List.filter_eq_self.mpr]
    intro pr hpr
    exact decide_eq_true (mkPanels_chapterId _ urls pr hpr)
  refine ⟨?_, hpan, ?_⟩
  · simp only [saveChapterToSupabase, hrow]
    exact hid
  · rw [hpan]
    exact mkPanels_map_imageUrl _ urls

/-! ## Claims C1 and C5: catalog differ and identity normalizer -/

/-- A link whose numeric token fails to parse is skipped; the remaining
links are processed unchanged. -/
theorem chapterLinksFromRaw_skip (pre post : List RawChapterLink) (l : RawChapterLink)
    (h : parsePyFloat l.numStr = none) :
    chapterLinksFromRaw (pre ++ l :: post) = chapterLinksFromRaw (pre ++ post) := by
  unfold chapterLinksFromRaw
  simp [List.filterMap_append, List.filterMap_cons, h]

/-- One dict-comprehension step preserves: keys are distinct, and each
value is stored under its own chapter number. -/
theorem dedupStep_invariants (acc : List (ℚ × SourceItem)) (ch : SourceItem)
    (h1 : (acc.map Prod.fst).Nodup) (h2 : ∀ p ∈ acc, p.2.number = p.1) :
    ((dedupStep acc ch).map Prod.fst).Nodup ∧ ∀ p ∈ dedupStep acc ch, p.2.number = p.1 := by
  unfold dedupStep
  split_ifs with hc
  · constructor
    · rw [List.map_map]
      have heq : (Prod.fst ∘ fun p : ℚ × SourceItem =>
          if p.1 = ch.number then (p.1, ch) else p) = Prod.fst := by
        funext p
        by_cases hp : p.1 = ch.number <;> simp [hp]
      rw [heq]
      exact h1
    · intro p hp
      rw [List.mem_map] at hp
      obtain ⟨q, hq, rfl⟩ := hp
      by_cases hqc : q.1 = ch.number
      · simp only [if_pos hqc]
        exact hqc.symm
      · simp only [if_neg hqc]
        exact h2 q hq
  · constructor
    · rw [List.map_append, List.nodup_append]
      refine ⟨h1, by simp, ?_⟩
      intro a ha hb
      simp only [List.map_cons, List.map_nil, List.mem_singleton] at hb
      subst hb
      exact hc ha
    · intro p hp
      rw [List.mem_append] at hp
      rcases hp with hp | hp
      · exact h2 p hp
      · rw [List.mem_singleton] at hp
        subst hp
        rfl

/-- The dict comprehension yields distinct keys, each mapping to an item
whose number is that key. -/
theorem dedupLastWins_invariants (items : List SourceItem) :
    ∀ acc : List (ℚ × SourceItem),
      (acc.map Prod.fst).Nodup → (∀ p ∈ acc, p.2.number = p.1) →
      ((items.foldl dedupStep acc).map Prod.fst).Nodup ∧
        ∀ p ∈ items.foldl dedupStep acc, p.2.number = p.1 := by
  induction items with
  | nil => intro acc h1 h2; exact ⟨h1, h2⟩
  | cons ch items ih =>
    intro acc h1 h2
    obtain ⟨h1n, h2n⟩ := dedupStep_invariants acc ch h1 h2
    exact ih _ h1n h2n

/-- Every entry of the available-chapters map is keyed by its item's
chapter number. -/
theorem getAvailableChapters_key_eq (links : List RawChapterLink) :
    ∀ p ∈ getAvailableChapters links, p.2.number = p.1 :=
  (dedupLastWins_invariants _ [] List.nodup_nil (by intro p hp; cases hp)).2

/-- The available-chapters map has no duplicate keys. -/
theorem getAvailableChapters_nodup_keys (links : List RawChapterLink) :
    ((getAvailableChapters links).map Prod.fst).Nodup :=
  (dedupLastWins_invariants _ [] List.nodup_nil (by intro p hp; cases hp)).1

/-- A successful dict lookup returns an item stored under the looked-up
key, whose number is that key. -/
theorem lookupItem_mem {A : List (ℚ × SourceItem)} {k : ℚ} {it : SourceItem}
    (hkey : ∀ p ∈ A, p.2.number = p.1) (h : lookupItem A k = some it) :
    (k, it) ∈ A ∧ it.number = k := by
  unfold lookupItem at h
  cases hf : A.find? (fun p => decide (p.1 = k)) with
  | none => rw [hf] at h; cases h
  | some pr =>
    rw [hf] at h
    have hit : pr.2 = it := by simpa using h
    have hm := List.mem_of_find?_eq_some hf
    have hprk : pr.1 = k := by simpa using List.find?_some hf
    subst hit
    constructor
    · rw [← hprk]
      exact hm
    · rw [hkey pr hm]
      exact hprk

/-- With distinct keys, the dict lookup finds exactly the stored item. -/
theorem mem_lookupItem :
    ∀ {A : List (ℚ × SourceItem)} {k : ℚ} {it : SourceItem},
      (A.map Prod.fst).Nodup → (k, it) ∈ A → lookupItem A k = some it := by
  intro A
  induction A with
  | nil => intro k it _ h; cases h
  | cons p A ih =>
    intro k it hnd h
    rw [List.map_cons, List.nodup_cons] at hnd
    rcases List.mem_cons.mp h with heq | hmem
    · subst heq
      simp [lookupItem, List.find?]
    · have hk : k ∈ A.map Prod.fst := by
        rw [List.mem_map]
        exact ⟨(k, it), hmem, rfl⟩
      have hne : decide (p.1 = k) = false :=
        decide_eq_false fun he => hnd.1 (he ▸ hk)
      simp only [lookupItem, List.find?, hne]
      simpa [lookupItem] using ih hnd.2 hmem

/-- Resolving a list of keys (all present in the map) back to items and
projecting their numbers returns the key list itself. -/
theorem filterMap_lookup_map_number {A : List (ℚ × SourceItem)}
    (hkey : ∀ p ∈ A, p.2.number = p.1) :
    ∀ ks : List ℚ, (∀ k ∈ ks, k ∈ A.map Prod.fst) →
      ((ks.filterMap (lookupItem A)).map fun it => it.number) = ks := by
  intro ks
  induction ks with
  | nil => intro _; rfl
  | cons k ks ih =>
    intro hall
    have hk : k ∈ A.map Prod.fst := hall k (List.mem_cons_self k ks)
    cases hf : A.find? (fun p => decide (p.1 = k)) with
    | none =>
      exfalso
      obtain ⟨p, hp, hpk⟩ := List.mem_map.mp hk
      have : (A.find? fun p => decide (p.1 = k)).isSome = true :=
        List.find?_isSome.mpr ⟨p, hp, decide_eq_true hpk⟩
      rw [hf] at this
      cases this
    | some pr =>
      have hm := List.mem_of_find?_eq_some hf
      have hprk : pr.1 = k := by simpa using List.find?_some hf
      simp only [List.filterMap_cons, lookupItem, hf, Option.map_some']
      rw [List.map_cons, hkey pr hm, hprk,
        ih fun x hx => hall x (List.mem_cons_of_mem _ hx)]

/-- C1: with `forceAll = false` the differ returns exactly the items whose
keys are in `available.keys - existing`, in strictly ascending key order;
keys that fail normalization never enter `available` (such links are
skipped, leaving the result unchanged); and on Scenario A
(`existing = {1,2,3}`, available keys `{1,2,3,4,4.5}`) the work list is
`[4, 4.5]` in that order. -/
theorem c1_differ_missing_sorted :
    (∀ (existing : List ℚ) (links : List RawChapterLink),
        (∀ it : SourceItem,
          it ∈ findMissingChapters existing (getAvailableChapters links) false ↔
            (it.number, it) ∈ getAvailableChapters links ∧ it.number ∉ existing) ∧
        ((findMissingChapters existing (getAvailableChapters links) false).map
          fun it => it.number).Sorted (· < ·)) ∧
    (∀ (existing : List ℚ) (pre post : List RawChapterLink) (l : RawChapterLink),
        parsePyFloat l.numStr = none →
        findMissingChapters existing (getAvailableChapters (pre ++ l :: post)) false =
          findMissingChapters existing (getAvailableChapters (pre ++ post)) false) ∧
    findMissingChapters [1, 2, 3] (getAvailableChapters scenarioALinks) false =
      [⟨"u4", 4, "ch4"⟩, ⟨"u45", mkRat 9 2, "ch45"⟩] := by
  refine ⟨?_, ?_, by decide⟩
  · intro existing links
    have hkey := getAvailableChapters_key_eq links
    have hnd := getAvailableChapters_nodup_keys links
    constructor
    · intro it
      unfold findMissingChapters
      simp only [Bool.false_eq_true, if_false]
      constructor
      · intro hmem
        obtain ⟨k, hk, hlook⟩ := List.mem_filterMap.mp hmem
        obtain ⟨hmemA, hnum⟩ := lookupItem_mem hkey hlook
        have hkfil := (List.mem_insertionSort _).mp hk
        have hnot : k ∉ existing :=
          of_decide_eq_true (List.mem_filter.mp hkfil).2
        subst hnum
        exact ⟨hmemA, hnot⟩
      · rintro ⟨hmemA, hnot⟩
        apply List.mem_filterMap.mpr
        refine ⟨it.number, ?_, mem_lookupItem hnd hmemA⟩
        apply (List.mem_insertionSort _).mpr
        apply List.mem_filter.mpr
        exact ⟨List.mem_dedup.mpr (List.mem_map.mpr ⟨(it.number, it), hmemA, rfl⟩),
          decide_eq_true hnot⟩
    · unfold findMissingChapters
      simp only [Bool.false_eq_true, if_false]
      rw [filterMap_lookup_map_number hkey]
      · have hsortle :
            (List.insertionSort (fun a b => a ≤ b)
              (((getAvailableChapters links).map Prod.fst).dedup.filter
                fun k => decide (k ∉ existing))).Sorted (fun a b => a ≤ b) :=
          List.sorted_insertionSort _ _
        have hndf : ((((getAvailableChapters links).map Prod.fst).dedup).filter
            fun k => decide (k ∉ existing)).Nodup := (List.nodup_dedup _).filter _
        have hnds := ((List.perm_insertionSort (fun a b => a ≤ b) _).nodup_iff).mpr hndf
        exact hsortle.lt_of_le hnds
      · intro k hk
        have hkfil := (List.mem_insertionSort _).mp hk
        exact List.mem_dedup.mp (List.mem_filter.mp hkfil).1
  · intro existing pre post l h
    unfold getAvailableChapters
    rw [chapterLinksFromRaw_skip pre post l h]

/-- Witness for C1: a link with unparseable token "abc" is excluded from
the diff. -/
theorem c1_differ_missing_sorted_witness :
    parsePyFloat "abc" = none ∧
    findMissingChapters [1]
        (getAvailableChapters
          [⟨"u1", "1", "ch1"⟩, ⟨"ubad", "abc", "chbad"⟩, ⟨"u2", "2", "ch2"⟩]) false =
      findMissingChapters [1]
        (getAvailableChapters [⟨"u1", "1", "ch1"⟩, ⟨"u2", "2", "ch2"⟩]) false :=
  ⟨by decide,
   c1_differ_missing_sorted.2.1 [1] [⟨"u1", "1", "ch1"⟩] [⟨"u2", "2", "ch2"⟩]
     ⟨"ubad", "abc", "chbad"⟩ (by decide)⟩

/-- C5: the normalizer parses a token as a float and int-ifies it exactly
when it has no fractional part, so `normalize("15.0") = normalize("15")`
and `normalize("100.5") ≠ normalize("100")`; an unparseable token such as
"abc" fails (`ValueError` / `InvalidIdentifier`), and the caller skips that
item and continues instead of aborting. -/
theorem c5_identity_normalizer :
    normalizeChapterNumber "15.0" = normalizeChapterNumber "15" ∧
    normalizeChapterNumber "15" = some (.intVal 15) ∧
    normalizeChapterNumber "100.5" = some (.floatVal (mkRat 201 2)) ∧
    normalizeChapterNumber "100" = some (.intVal 100) ∧
    normalizeChapterNumber "100.5" ≠ normalizeChapterNumber "100" ∧
    normalizeChapterNumber "abc" = none ∧
    (∀ (pre post : List RawChapterLink) (l : RawChapterLink),
        parsePyFloat l.numStr = none →
        chapterLinksFromRaw (pre ++ l :: post) = chapterLinksFromRaw (pre ++ post)) :=
  ⟨by decide, by decide, by decide, by decide, by decide, by decide,
   chapterLinksFromRaw_skip⟩

/-- Witness for C5: the caller skips the item with token "1.2.3" (which
`float` rejects) and keeps processing the rest. -/
theorem c5_identity_normalizer_witness :
    parsePyFloat "1.2.3" = none ∧
    chapterLinksFromRaw [⟨"u1", "1", "ch1"⟩, ⟨"ubad", "1.2.3", "chbad"⟩] =
      chapterLinksFromRaw [⟨"u1", "1", "ch1"⟩] :=
  ⟨by decide,
   c5_identity_normalizer.2.2.2.2.2.2 [⟨"u1", "1", "ch1"⟩] []
     ⟨"ubad", "1.2.3", "chbad"⟩ (by decide)⟩

end MangaScraper
